import Mathlib

/-!
Verification of the opportunity evaluation and prioritization pipeline of the
`my_digital_being` activities (`activity_opportunity_analyzer.py` and
`activity_money_evaluation.py`), shallowly embedded in Lean 4.

Modelling conventions:
* Python `float` arithmetic is modelled by exact rationals (`ℚ`); literals such
  as `0.2` denote the exact rational the source writes.
* Python dict fields that may be absent are modelled by `Option`; `d.get(k, v)`
  becomes `(field).getD v`.
* Python's built-in `round(x, 2)` is modelled by `pyRound2`, half-to-even
  rounding on the exact rational; CPython rounds the nearest binary double,
  which can differ at exact decimal midpoints (e.g. `round(0.615, 2)` is
  0.61 in CPython), so no theorem below pins a rounded value at a decimal
  midpoint.
* Python's `sorted(l, key=…, reverse=True)` — the unique stable descending
  sort — is modelled by the stable insertion sort `sortDesc`.
-/

/-- Substring test on character lists: `hasSub needle hay` is true iff `needle`
occurs contiguously in `hay` (Python `needle in hay`; the empty needle always
occurs). -/
def hasSub (needle : List Char) : List Char → Bool
  | [] => needle.isEmpty
  | c :: t => needle.isPrefixOf (c :: t) || hasSub needle t

/-- Python `needle in hay` on strings. -/
def strContains (hay needle : String) : Bool :=
  hasSub needle.data hay.data

/-- Python `any(n in hay for n in needles)`. -/
def containsAny (hay : String) (needles : List String) : Bool :=
  needles.any (fun n => strContains hay n)

/-- Numeric value of a digit list (caller checks the digits). -/
def natOfDigits (l : List Char) : ℕ :=
  l.foldl (fun a c => a * 10 + (c.toNat - 48)) 0

/-- Models Python `float(s)` restricted to optionally-signed decimal literals
(the only shapes the pipeline feeds it, e.g. `"25"` from `"25%"`); any other
string yields `none` (the `ValueError` branch). -/
def parsePyFloat (s : String) : Option ℚ :=
  let l := s.trim.data
  let p : ℚ × List Char :=
    match l with
    | '-' :: rest => (-1, rest)
    | '+' :: rest => (1, rest)
    | _ => (1, l)
  let intPart := p.2.takeWhile (fun c => c ≠ '.')
  let rest := p.2.dropWhile (fun c => c ≠ '.')
  match rest with
  | [] =>
    if intPart ≠ [] ∧ intPart.all Char.isDigit then
      some (p.1 * (natOfDigits intPart : ℚ))
    else none
  | '.' :: frac =>
    if (intPart ≠ [] ∨ frac ≠ []) ∧ intPart.all Char.isDigit ∧ frac.all Char.isDigit then
      some (p.1 * ((natOfDigits intPart : ℚ) + (natOfDigits frac : ℚ) / 10 ^ frac.length))
    else none
  | _ => none

/-- Round half to even on a rational. This idealises Python's `round`,
which applies half-to-even to the nearest binary double and can therefore
differ from the exact-rational result at decimal midpoints (e.g.
`round(0.615, 2) = 0.61` in CPython); no theorem below relies on
`pyRound2` at such a midpoint. -/
def roundHalfEven (q : ℚ) : ℤ :=
  if q - ⌊q⌋ < 1/2 then ⌊q⌋
  else if 1/2 < q - ⌊q⌋ then ⌊q⌋ + 1
  else if ⌊q⌋ % 2 = 0 then ⌊q⌋ else ⌊q⌋ + 1

/-- Python `round(q, 2)`, under the idealisation of `roundHalfEven`. -/
def pyRound2 (q : ℚ) : ℚ := (roundHalfEven (q * 100) : ℚ) / 100

/-- The `requirements` sub-dict of an opportunity; each key may be absent. -/
structure Requirements where
  skills : Option (List String)
  time_to_market : Option String
deriving DecidableEq

/-- An opportunity record; every field the two activities' scorers inspect may
be absent (`none` = the dict key is missing). `title` is carried along for
identity only. -/
structure Opportunity where
  title : Option String := none
  sector : Option String := none
  market : Option String := none
  market_size : Option String := none
  growth_rate : Option String := none
  insight : Option String := none
  requirements : Option Requirements := none
  risks : Option (List String) := none
deriving DecidableEq

/-- The four per-criterion scores (`scores` dict, all keys always present). -/
structure Scores where
  market_potential : ℚ
  feasibility : ℚ
  risk_level : ℚ
  profitability : ℚ
deriving DecidableEq

/-- The `evaluation_criteria` table both activity classes define identically:
criterion name, weight, and informational factor strings. -/
def evaluation_criteria : List (String × ℚ × List String) :=
  [("market_potential", 0.3, ["market_size", "growth_rate", "competition"]),
   ("feasibility", 0.25, ["technical_complexity", "resource_requirements", "time_to_market"]),
   ("risk_level", 0.25, ["market_risks", "technical_risks", "regulatory_risks"]),
   ("profitability", 0.2, ["revenue_potential", "cost_structure", "scalability"])]

/-- Weight lookup in `evaluation_criteria` (keys used are always present). -/
def criterionWeight (c : String) : ℚ :=
  ((evaluation_criteria.find? (fun e => e.1 = c)).map (fun e => e.2.1)).getD 0

/-- The `scores.items()` view of a `Scores` record, in insertion order. -/
def scoresItems (s : Scores) : List (String × ℚ) :=
  [("market_potential", s.market_potential), ("feasibility", s.feasibility),
   ("risk_level", s.risk_level), ("profitability", s.profitability)]

/-- `sum(score * evaluation_criteria[criterion]["weight"] for criterion, score
in scores.items())`, as both activities compute it. -/
def weightedTotal (s : Scores) : ℚ :=
  (scoresItems s |>.map (fun p => p.2 * criterionWeight p.1)).sum

namespace OpportunityAnalyzer

/-- The `market_size` adjustment of `_evaluate_market_potential`: +0.2 for
"trillion", else +0.1 for "billion", case-insensitively. -/
def marketSizeAdj (ms : Option String) : ℚ :=
  match ms with
  | some s =>
    if strContains s.toLower "trillion" then 0.2
    else if strContains s.toLower "billion" then 0.1
    else 0
  | none => 0

/-- The `growth_rate` adjustment of `_evaluate_market_potential`: if the text
contains "%", parse the part before the first "%" as a float; +0.1 when
> 20, +0.05 when > 10; parse failure (`ValueError`) adds nothing. -/
def growthRateAdj (gr : Option String) : ℚ :=
  match gr with
  | some g =>
    if strContains g "%" then
      match parsePyFloat (String.mk (g.data.takeWhile (fun c => c ≠ '%'))) with
      | some rate => if 20 < rate then 0.1 else if 10 < rate then 0.05 else 0
      | none => 0
    else 0
  | none => 0

/-- `_evaluate_market_potential` of `OpportunityAnalyzerActivity`. -/
def evaluate_market_potential (o : Opportunity) : ℚ :=
  min 1 (0.7 + marketSizeAdj o.market_size + growthRateAdj o.growth_rate)

/-- The skills adjustment of `_evaluate_feasibility`: +0.2 when the skills
list (if the key is present) has at most 2 entries, +0.1 for at most 4. -/
def skillsAdj (rq : Option Requirements) : ℚ :=
  match rq with
  | some r =>
    match r.skills with
    | some sk => if sk.length ≤ 2 then 0.2 else if sk.length ≤ 4 then 0.1 else 0
    | none => 0
  | none => 0

/-- The time-to-market adjustment of `_evaluate_feasibility`: +0.1 when
`requirements.get("time_to_market", "Unknown")` contains "month". -/
def timeToMarketAdj (rq : Option Requirements) : ℚ :=
  if strContains (((rq.map (fun r => r.time_to_market)).getD none).getD "Unknown").toLower "month"
  then 0.1 else 0

/-- `_evaluate_feasibility` of `OpportunityAnalyzerActivity`. -/
def evaluate_feasibility (o : Opportunity) : ℚ :=
  min 1 (0.6 + skillsAdj o.requirements + timeToMarketAdj o.requirements)

/-- The risk-count adjustment of `_evaluate_risks`: fewer risks is better. -/
def risksAdj (risks : List String) : ℚ :=
  if risks.length ≤ 2 then 0.3 else if risks.length ≤ 4 then 0.1 else 0

/-- `_evaluate_risks` of `OpportunityAnalyzerActivity`. -/
def evaluate_risks (o : Opportunity) : ℚ :=
  min 1 (0.5 + risksAdj (o.risks.getD []))

/-- The `market` adjustment of `_evaluate_profitability`: +0.2 when the
`market` key is present and equals "saas" or "digital_products". -/
def marketAdj (m : Option String) : ℚ :=
  match m with
  | some s => if s = "saas" ∨ s = "digital_products" then 0.2 else 0
  | none => 0

/-- `_evaluate_profitability` of `OpportunityAnalyzerActivity`. -/
def evaluate_profitability (o : Opportunity) : ℚ :=
  min 1 (0.5 + marketAdj o.market)

end OpportunityAnalyzer

namespace MoneyEvaluation

/-- Sector adjustment common to all four money-evaluation scorers: +0.2 when
any keyword occurs in the lower-cased `sector` (absent = ""). -/
def sectorBonus (sector : String) (keywords : List String) : ℚ :=
  if containsAny sector keywords then 0.2 else 0

/-- Insight adjustment: +0.1 when either keyword occurs in the lower-cased
`insight` (absent = ""). -/
def insightBonus (insight k1 k2 : String) : ℚ :=
  if strContains insight k1 || strContains insight k2 then 0.1 else 0

/-- Insight adjustment: -0.1 when either keyword occurs in the lower-cased
`insight` (absent = ""). -/
def insightMalus (insight k1 k2 : String) : ℚ :=
  if strContains insight k1 || strContains insight k2 then -0.1 else 0

/-- `_evaluate_market_potential` of `MoneyEvaluationActivity`. -/
def evaluate_market_potential (o : Opportunity) : ℚ :=
  min 1
    (0.5
      + sectorBonus (o.sector.getD "").toLower
          ["technology", "digital_transformation", "ai", "sustainability"]
      + insightBonus (o.insight.getD "").toLower "growing market" "high demand"
      + insightBonus (o.insight.getD "").toLower "emerging" "innovative")

/-- `_evaluate_feasibility` of `MoneyEvaluationActivity`. -/
def evaluate_feasibility (o : Opportunity) : ℚ :=
  min 1
    (0.5
      + sectorBonus (o.sector.getD "").toLower ["software", "digital", "online", "saas"]
      + (if (((o.requirements.map (fun r => r.skills)).getD none).getD []).length ≤ 2
         then 0.1 else 0))

/-- `_evaluate_risks` of `MoneyEvaluationActivity`. -/
def evaluate_risks (o : Opportunity) : ℚ :=
  min 1 (max 0
    (0.5
      + sectorBonus (o.sector.getD "").toLower ["essential_services", "b2b", "enterprise"]
      + insightBonus (o.insight.getD "").toLower "proven" "established"
      + insightMalus (o.insight.getD "").toLower "risky" "uncertain"))

/-- `_evaluate_profitability` of `MoneyEvaluationActivity`. -/
def evaluate_profitability (o : Opportunity) : ℚ :=
  min 1 (max 0
    (0.5
      + sectorBonus (o.sector.getD "").toLower ["saas", "digital_products", "consulting"]
      + insightBonus (o.insight.getD "").toLower "profitable" "revenue"
      + insightMalus (o.insight.getD "").toLower "competitive" "saturated"))

/-- `_get_priority_level` of `MoneyEvaluationActivity`. -/
def get_priority_level (score : ℚ) : String :=
  if 0.8 ≤ score then "High"
  else if 0.6 ≤ score then "Medium"
  else "Low"

end MoneyEvaluation

/-- Stable descending insertion by key: `x` goes before the first element whose
key is `≤ key x` (so among equal keys, the earlier input element stays first). -/
def insertDesc (key : α → ℚ) (x : α) : List α → List α
  | [] => [x]
  | y :: ys => if key y ≤ key x then x :: y :: ys else y :: insertDesc key x ys

/-- Models Python `sorted(l, key=key, reverse=True)`: the unique stable
descending sort by `key`. -/
def sortDesc (key : α → ℚ) : List α → List α
  | [] => []
  | x :: xs => insertDesc key x (sortDesc key xs)

namespace OpportunityAnalyzer

/-- One entry of `_analyze_opportunities`' output: the opportunity together
with its `scores` dict and rounded `overall_score`. -/
structure Analyzed where
  opp : Opportunity
  scores : Scores
  overall_score : ℚ
deriving DecidableEq

/-- `_analyze_opportunities` of `OpportunityAnalyzerActivity` (the `await` is
irrelevant: the body is synchronous). -/
def analyze_opportunities (opportunities : List Opportunity) : List Analyzed :=
  opportunities.map (fun o =>
    let s : Scores :=
      { market_potential := evaluate_market_potential o,
        feasibility := evaluate_feasibility o,
        risk_level := evaluate_risks o,
        profitability := evaluate_profitability o }
    { opp := o, scores := s, overall_score := pyRound2 (weightedTotal s) })

/-- An analyzed opportunity after `_prioritize_opportunities` added its
`priority` key. -/
structure Prioritized where
  analyzed : Analyzed
  priority : String
deriving DecidableEq

/-- `_prioritize_opportunities` of `OpportunityAnalyzerActivity`: stable sort
descending by `overall_score`, then tier by index (`idx < len*0.2` → High,
`idx < len*0.5` → Medium, else Low). -/
def prioritize_opportunities (analyzed : List Analyzed) : List Prioritized :=
  let s := sortDesc (fun a => a.overall_score) analyzed
  s.enum.map (fun p =>
    { analyzed := p.2,
      priority :=
        if (p.1 : ℚ) < (s.length : ℚ) * 0.2 then "High"
        else if (p.1 : ℚ) < (s.length : ℚ) * 0.5 then "Medium"
        else "Low" })

/-- One milestone of a detailed action plan. -/
structure Milestone where
  name : String
  timeline : String
  success_criteria : List String
deriving DecidableEq

/-- The `required_resources` block of an action plan. -/
structure RequiredResources where
  estimated_budget : String
  key_skills : List String
  timeline : String
deriving DecidableEq

/-- An action plan; `milestones = none` models a plan dict without a
`milestones` key. -/
structure ActionPlan where
  immediate_actions : List String
  required_resources : RequiredResources
  milestones : Option (List Milestone)
deriving DecidableEq

/-- `opportunity.get("requirements", {}).get("skills", [])`. -/
def reqSkills (o : Opportunity) : List String :=
  ((o.requirements.map (fun r => r.skills)).getD none).getD []

/-- `_create_detailed_plan` of `OpportunityAnalyzerActivity`. -/
def create_detailed_plan (o : Opportunity) : ActionPlan :=
  { immediate_actions :=
      ["Conduct detailed market analysis",
       "Identify potential first customers",
       "Draft initial business plan",
       "Research regulatory requirements"],
    required_resources :=
      { estimated_budget := "TBD based on market research",
        key_skills := reqSkills o,
        timeline := "90 days initial phase" },
    milestones := some
      [{ name := "Market Validation",
         timeline := "30 days",
         success_criteria :=
           ["Identified 10+ potential customers",
            "Completed competitor analysis",
            "Defined unique value proposition"] },
       { name := "MVP Planning",
         timeline := "60 days",
         success_criteria :=
           ["Detailed technical requirements",
            "Resource plan",
            "Initial cost estimates"] }] }

/-- `_create_basic_plan` of `OpportunityAnalyzerActivity`. -/
def create_basic_plan (_o : Opportunity) : ActionPlan :=
  { immediate_actions :=
      ["Monitor market conditions",
       "Track competitor activities",
       "Identify potential entry points"],
    required_resources :=
      { estimated_budget := "Minimal - monitoring only",
        key_skills := ["Market research"],
        timeline := "Ongoing monitoring" },
    milestones := none }

/-- A prioritized opportunity after `_generate_action_plans` attached its
`action_plan`. -/
structure Planned where
  analyzed : Analyzed
  priority : String
  action_plan : ActionPlan
deriving DecidableEq

/-- `_generate_action_plans` of `OpportunityAnalyzerActivity`. -/
def generate_action_plans (opportunities : List Prioritized) : List Planned :=
  opportunities.map (fun p =>
    { analyzed := p.analyzed,
      priority := p.priority,
      action_plan :=
        if p.priority = "High" then create_detailed_plan p.analyzed.opp
        else create_basic_plan p.analyzed.opp })

/-- The `latest_market_research` record `execute` reads from shared memory
(only its `opportunities` key is consumed; a present record is a non-empty
dict, hence truthy). -/
structure MarketResearch where
  opportunities : List Opportunity
deriving DecidableEq

/-- The `analysis_result` dict `execute` builds and stores. -/
structure AnalysisResult where
  timestamp : String
  opportunities : List Planned
deriving DecidableEq

/-- `ActivityResult` as `execute` produces it. -/
structure ActivityResult where
  success : Bool
  data : Option AnalysisResult
  error : Option String
deriving DecidableEq

/-- `execute` of `OpportunityAnalyzerActivity`. `now` is the string
`datetime.now().isoformat()` returns; `market_research` is the shared-store
lookup (`none` = key absent / falsy). The second component is the value
written to `latest_opportunity_analysis` (`none` = nothing written). -/
def execute (now : String) (market_research : Option MarketResearch) :
    ActivityResult × Option AnalysisResult :=
  match market_research with
  | none =>
    ({ success := false, data := none,
       error := some "No market research data available" }, none)
  | some mr =>
    let analyzed := analyze_opportunities mr.opportunities
    let prioritized := prioritize_opportunities analyzed
    let withPlans := generate_action_plans prioritized
    let result : AnalysisResult := { timestamp := now, opportunities := withPlans }
    ({ success := true, data := some result, error := none }, some result)

end OpportunityAnalyzer

namespace MoneyEvaluation

/-- `_generate_recommendations` of `MoneyEvaluationActivity`. -/
def generate_recommendations (_o : Opportunity) (s : Scores) : List String :=
  (if s.market_potential < 0.6 then
    ["Conduct deeper market research to validate demand and identify specific niches"] else [])
  ++ (if s.feasibility < 0.6 then
    ["Break down implementation into smaller phases to reduce complexity"] else [])
  ++ (if s.risk_level < 0.6 then
    ["Develop risk mitigation strategies and identify potential pivots"] else [])
  ++ (if s.profitability < 0.6 then
    ["Explore additional revenue streams and optimization opportunities"] else [])
  ++ ["Create detailed implementation timeline",
      "Identify key partnerships or resources needed",
      "Define clear success metrics"]

/-- One `evaluation` dict of `_evaluate_opportunities`. -/
structure Evaluation where
  opportunity : Opportunity
  scores : Scores
  overall_score : ℚ
  priority : String
  recommendations : List String
deriving DecidableEq

/-- The loop body of `_evaluate_opportunities`: note the source passes the
unrounded `total_score` to `_get_priority_level`, while `overall_score` is
the rounded value. -/
def evaluateOne (o : Opportunity) : Evaluation :=
  let s : Scores :=
    { market_potential := evaluate_market_potential o,
      feasibility := evaluate_feasibility o,
      risk_level := evaluate_risks o,
      profitability := evaluate_profitability o }
  { opportunity := o, scores := s,
    overall_score := pyRound2 (weightedTotal s),
    priority := get_priority_level (weightedTotal s),
    recommendations := generate_recommendations o s }

/-- `_evaluate_opportunities` of `MoneyEvaluationActivity`: evaluate each
opportunity in order, then stable-sort descending by `overall_score`. -/
def evaluate_opportunities (opportunities : List Opportunity) : List Evaluation :=
  sortDesc (fun e => e.overall_score) (opportunities.map evaluateOne)

end MoneyEvaluation

section ScoreBounds

lemma marketSizeAdj_nonneg (ms : Option String) : 0 ≤ OpportunityAnalyzer.marketSizeAdj ms := by
  unfold OpportunityAnalyzer.marketSizeAdj
  rcases ms with _ | s <;> dsimp only
  · norm_num
  · split_ifs <;> norm_num

lemma growthRateAdj_nonneg (gr : Option String) : 0 ≤ OpportunityAnalyzer.growthRateAdj gr := by
  unfold OpportunityAnalyzer.growthRateAdj
  rcases gr with _ | g <;> dsimp only
  · norm_num
  · split_ifs
    · rcases parsePyFloat (String.mk (g.data.takeWhile (fun c => c ≠ '%'))) with _ | r <;>
        dsimp only
      · norm_num
      · split_ifs <;> norm_num
    · norm_num

lemma skillsAdj_nonneg (rq : Option Requirements) : 0 ≤ OpportunityAnalyzer.skillsAdj rq := by
  unfold OpportunityAnalyzer.skillsAdj
  rcases rq with _ | r <;> dsimp only
  · norm_num
  · rcases r.skills with _ | sk <;> dsimp only
    · norm_num
    · split_ifs <;> norm_num

lemma timeToMarketAdj_nonneg (rq : Option Requirements) :
    0 ≤ OpportunityAnalyzer.timeToMarketAdj rq := by
  unfold OpportunityAnalyzer.timeToMarketAdj
  split_ifs <;> norm_num

lemma risksAdj_nonneg (risks : List String) : 0 ≤ OpportunityAnalyzer.risksAdj risks := by
  unfold OpportunityAnalyzer.risksAdj
  split_ifs <;> norm_num

lemma marketAdj_nonneg (m : Option String) : 0 ≤ OpportunityAnalyzer.marketAdj m := by
  unfold OpportunityAnalyzer.marketAdj
  rcases m with _ | s <;> dsimp only
  · norm_num
  · split_ifs <;> norm_num

lemma sectorBonus_nonneg (s : String) (ks : List String) :
    0 ≤ MoneyEvaluation.sectorBonus s ks := by
  unfold MoneyEvaluation.sectorBonus
  split_ifs <;> norm_num

lemma insightBonus_nonneg (s k1 k2 : String) : 0 ≤ MoneyEvaluation.insightBonus s k1 k2 := by
  unfold MoneyEvaluation.insightBonus
  split_ifs <;> norm_num

lemma OA_mp_bounds (o : Opportunity) :
    0 ≤ OpportunityAnalyzer.evaluate_market_potential o
      ∧ OpportunityAnalyzer.evaluate_market_potential o ≤ 1 := by
  unfold OpportunityAnalyzer.evaluate_market_potential
  refine ⟨le_min (by norm_num) ?_, min_le_left _ _⟩
  have h1 := marketSizeAdj_nonneg o.market_size
  have h2 := growthRateAdj_nonneg o.growth_rate
  linarith

lemma OA_feas_bounds (o : Opportunity) :
    0 ≤ OpportunityAnalyzer.evaluate_feasibility o
      ∧ OpportunityAnalyzer.evaluate_feasibility o ≤ 1 := by
  unfold OpportunityAnalyzer.evaluate_feasibility
  refine ⟨le_min (by norm_num) ?_, min_le_left _ _⟩
  have h1 := skillsAdj_nonneg o.requirements
  have h2 := timeToMarketAdj_nonneg o.requirements
  linarith

lemma OA_risk_bounds (o : Opportunity) :
    0 ≤ OpportunityAnalyzer.evaluate_risks o ∧ OpportunityAnalyzer.evaluate_risks o ≤ 1 := by
  unfold OpportunityAnalyzer.evaluate_risks
  refine ⟨le_min (by norm_num) ?_, min_le_left _ _⟩
  have h1 := risksAdj_nonneg (o.risks.getD [])
  linarith

lemma OA_profit_bounds (o : Opportunity) :
    0 ≤ OpportunityAnalyzer.evaluate_profitability o
      ∧ OpportunityAnalyzer.evaluate_profitability o ≤ 1 := by
  unfold OpportunityAnalyzer.evaluate_profitability
  refine ⟨le_min (by norm_num) ?_, min_le_left _ _⟩
  have h1 := marketAdj_nonneg o.market
  linarith

lemma ME_mp_bounds (o : Opportunity) :
    0 ≤ MoneyEvaluation.evaluate_market_potential o
      ∧ MoneyEvaluation.evaluate_market_potential o ≤ 1 := by
  unfold MoneyEvaluation.evaluate_market_potential
  refine ⟨le_min (by norm_num) ?_, min_le_left _ _⟩
  have h1 := sectorBonus_nonneg (o.sector.getD "").toLower
    ["technology", "digital_transformation", "ai", "sustainability"]
  have h2 := insightBonus_nonneg (o.insight.getD "").toLower "growing market" "high demand"
  have h3 := insightBonus_nonneg (o.insight.getD "").toLower "emerging" "innovative"
  linarith

lemma ME_feas_bounds (o : Opportunity) :
    0 ≤ MoneyEvaluation.evaluate_feasibility o
      ∧ MoneyEvaluation.evaluate_feasibility o ≤ 1 := by
  unfold MoneyEvaluation.evaluate_feasibility
  refine ⟨le_min (by norm_num) ?_, min_le_left _ _⟩
  have h1 := sectorBonus_nonneg (o.sector.getD "").toLower
    ["software", "digital", "online", "saas"]
  have h2 : (0:ℚ) ≤
      (if (((o.requirements.map (fun r => r.skills)).getD none).getD []).length ≤ 2
       then (0.1:ℚ) else 0) := by split_ifs <;> norm_num
  linarith

lemma ME_risk_bounds (o : Opportunity) :
    0 ≤ MoneyEvaluation.evaluate_risks o ∧ MoneyEvaluation.evaluate_risks o ≤ 1 := by
  unfold MoneyEvaluation.evaluate_risks
  exact ⟨le_min (by norm_num) (le_max_left _ _), min_le_left _ _⟩

lemma ME_profit_bounds (o : Opportunity) :
    0 ≤ MoneyEvaluation.evaluate_profitability o
      ∧ MoneyEvaluation.evaluate_profitability o ≤ 1 := by
  unfold MoneyEvaluation.evaluate_profitability
  exact ⟨le_min (by norm_num) (le_max_left _ _), min_le_left _ _⟩

end ScoreBounds

/-- C1: each of the four scorer functions, in both the opportunity-analyzer
and money-evaluation implementations, is total and returns a value in [0,1]
for every `Opportunity` record, including records with any or all optional
fields absent (absence is modelled as `none` and treated as empty). -/
theorem claim_C1_scorer_totality_and_bounds :
    ∀ o : Opportunity,
      (0 ≤ OpportunityAnalyzer.evaluate_market_potential o
        ∧ OpportunityAnalyzer.evaluate_market_potential o ≤ 1)
      ∧ (0 ≤ OpportunityAnalyzer.evaluate_feasibility o
        ∧ OpportunityAnalyzer.evaluate_feasibility o ≤ 1)
      ∧ (0 ≤ OpportunityAnalyzer.evaluate_risks o
        ∧ OpportunityAnalyzer.evaluate_risks o ≤ 1)
      ∧ (0 ≤ OpportunityAnalyzer.evaluate_profitability o
        ∧ OpportunityAnalyzer.evaluate_profitability o ≤ 1)
      ∧ (0 ≤ MoneyEvaluation.evaluate_market_potential o
        ∧ MoneyEvaluation.evaluate_market_potential o ≤ 1)
      ∧ (0 ≤ MoneyEvaluation.evaluate_feasibility o
        ∧ MoneyEvaluation.evaluate_feasibility o ≤ 1)
      ∧ (0 ≤ MoneyEvaluation.evaluate_risks o
        ∧ MoneyEvaluation.evaluate_risks o ≤ 1)
      ∧ (0 ≤ MoneyEvaluation.evaluate_profitability o
        ∧ MoneyEvaluation.evaluate_profitability o ≤ 1) :=
  fun o =>
    ⟨OA_mp_bounds o, OA_feas_bounds o, OA_risk_bounds o, OA_profit_bounds o,
     ME_mp_bounds o, ME_feas_bounds o, ME_risk_bounds o, ME_profit_bounds o⟩

section Rounding

lemma roundHalfEven_nonneg (q : ℚ) (h : 0 ≤ q) : 0 ≤ roundHalfEven q := by
  unfold roundHalfEven
  have hf : (0:ℤ) ≤ ⌊q⌋ := Int.floor_nonneg.mpr h
  split_ifs <;> omega

lemma roundHalfEven_le_100 (q : ℚ) (h : q ≤ 100) : roundHalfEven q ≤ 100 := by
  unfold roundHalfEven
  have hf : ⌊q⌋ ≤ 100 := by
    have h100 : ⌊q⌋ ≤ ⌊(100:ℚ)⌋ := Int.floor_le_floor h
    simpa using h100
  split_ifs with h1 h2 h3
  · exact hf
  all_goals {
    have hq : (⌊q⌋ : ℚ) ≤ q := Int.floor_le q
    have hge : (1:ℚ)/2 ≤ q - ⌊q⌋ := le_of_not_lt h1
    have hlt : (⌊q⌋ : ℚ) < 100 := by linarith
    have : ⌊q⌋ < 100 := by exact_mod_cast hlt
    omega }

lemma pyRound2_bounds (q : ℚ) (h0 : 0 ≤ q) (h1 : q ≤ 1) :
    0 ≤ pyRound2 q ∧ pyRound2 q ≤ 1 := by
  unfold pyRound2
  have a : (0:ℤ) ≤ roundHalfEven (q * 100) := roundHalfEven_nonneg _ (by linarith)
  have b : roundHalfEven (q * 100) ≤ 100 := roundHalfEven_le_100 _ (by linarith)
  have a' : (0:ℚ) ≤ (roundHalfEven (q * 100) : ℚ) := by exact_mod_cast a
  have b' : (roundHalfEven (q * 100) : ℚ) ≤ 100 := by exact_mod_cast b
  constructor
  · positivity
  · rw [div_le_one (by norm_num)]
    exact b'

end Rounding

section SortLemmas

variable {α : Type} (key : α → ℚ)

lemma mem_insertDesc (x y : α) (l : List α) :
    y ∈ insertDesc key x l ↔ y = x ∨ y ∈ l := by
  induction l with
  | nil => simp [insertDesc]
  | cons z zs ih =>
    by_cases h : key z ≤ key x
    · simp [insertDesc, h]
    · simp [insertDesc, h, ih]
      tauto

lemma length_insertDesc (x : α) (l : List α) :
    (insertDesc key x l).length = l.length + 1 := by
  induction l with
  | nil => simp [insertDesc]
  | cons z zs ih =>
    by_cases h : key z ≤ key x <;> simp [insertDesc, h, ih]

lemma length_sortDesc (l : List α) : (sortDesc key l).length = l.length := by
  induction l with
  | nil => simp [sortDesc]
  | cons x xs ih => simp [sortDesc, length_insertDesc, ih]

lemma mem_sortDesc (y : α) (l : List α) : y ∈ sortDesc key l ↔ y ∈ l := by
  induction l with
  | nil => simp [sortDesc]
  | cons x xs ih => simp [sortDesc, mem_insertDesc, ih]

lemma pairwise_insertDesc (x : α) (l : List α)
    (h : l.Pairwise (fun a b => key b ≤ key a)) :
    (insertDesc key x l).Pairwise (fun a b => key b ≤ key a) := by
  induction l with
  | nil => simp [insertDesc]
  | cons z zs ih =>
    rw [List.pairwise_cons] at h
    by_cases hle : key z ≤ key x
    · rw [insertDesc, if_pos hle, List.pairwise_cons]
      refine ⟨?_, List.pairwise_cons.mpr h⟩
      intro b hb
      rcases List.mem_cons.mp hb with rfl | hb'
      · exact hle
      · exact (h.1 b hb').trans hle
    · rw [insertDesc, if_neg hle, List.pairwise_cons]
      refine ⟨?_, ih h.2⟩
      intro b hb
      rcases (mem_insertDesc key x b zs).mp hb with rfl | hb'
      · exact le_of_lt (not_le.mp hle)
      · exact h.1 b hb'

lemma pairwise_sortDesc (l : List α) :
    (sortDesc key l).Pairwise (fun a b => key b ≤ key a) := by
  induction l with
  | nil => simp [sortDesc]
  | cons x xs ih => exact pairwise_insertDesc key x _ ih

lemma filter_insertDesc (q : ℚ) (x : α) (l : List α) :
    (insertDesc key x l).filter (fun y => key y == q)
      = if key x == q then x :: l.filter (fun y => key y == q)
        else l.filter (fun y => key y == q) := by
  induction l with
  | nil =>
    rw [insertDesc]
    by_cases hx : (key x == q) = true <;> simp [List.filter_cons, hx]
  | cons z zs ih =>
    by_cases hle : key z ≤ key x
    · rw [insertDesc, if_pos hle]
      by_cases hx : (key x == q) = true <;> simp [List.filter_cons, hx]
    · rw [insertDesc, if_neg hle]
      have hlt : key x < key z := not_le.mp hle
      by_cases hx : (key x == q) = true
      · have hz : (key z == q) = false := by
          apply beq_eq_false_iff_ne.mpr
          intro hq
          rw [beq_iff_eq] at hx
          rw [hx, hq] at hlt
          exact lt_irrefl q hlt
        simp [List.filter_cons, hz, hx, ih]
      · simp [List.filter_cons, hx, ih]

lemma filter_sortDesc (q : ℚ) (l : List α) :
    (sortDesc key l).filter (fun y => key y == q) = l.filter (fun y => key y == q) := by
  induction l with
  | nil => simp [sortDesc]
  | cons x xs ih =>
    rw [sortDesc, filter_insertDesc, ih]
    by_cases hx : (key x == q) = true <;> simp [List.filter_cons, hx]

end SortLemmas

section Aggregation

lemma weightedTotal_eq (s : Scores) :
    weightedTotal s
      = s.market_potential * criterionWeight "market_potential"
        + s.feasibility * criterionWeight "feasibility"
        + s.risk_level * criterionWeight "risk_level"
        + s.profitability * criterionWeight "profitability" := by
  simp [weightedTotal, scoresItems]
  ring

lemma criterionWeight_mp : criterionWeight "market_potential" = 0.3 := by
  with_unfolding_all rfl

lemma criterionWeight_feas : criterionWeight "feasibility" = 0.25 := by
  with_unfolding_all rfl

lemma criterionWeight_risk : criterionWeight "risk_level" = 0.25 := by
  with_unfolding_all rfl

lemma criterionWeight_profit : criterionWeight "profitability" = 0.2 := by
  with_unfolding_all rfl

lemma weightedTotal_val (s : Scores) :
    weightedTotal s
      = s.market_potential * 0.3 + s.feasibility * 0.25
        + s.risk_level * 0.25 + s.profitability * 0.2 := by
  rw [weightedTotal_eq, criterionWeight_mp, criterionWeight_feas, criterionWeight_risk,
    criterionWeight_profit]

lemma weightedTotal_bounds (s : Scores)
    (h1 : 0 ≤ s.market_potential) (h2 : s.market_potential ≤ 1)
    (h3 : 0 ≤ s.feasibility) (h4 : s.feasibility ≤ 1)
    (h5 : 0 ≤ s.risk_level) (h6 : s.risk_level ≤ 1)
    (h7 : 0 ≤ s.profitability) (h8 : s.profitability ≤ 1) :
    0 ≤ weightedTotal s ∧ weightedTotal s ≤ 1 := by
  rw [weightedTotal_val]
  constructor <;> linarith

lemma OA_overall_bounds (o : Opportunity) :
    0 ≤ pyRound2 (weightedTotal
        ⟨OpportunityAnalyzer.evaluate_market_potential o,
         OpportunityAnalyzer.evaluate_feasibility o,
         OpportunityAnalyzer.evaluate_risks o,
         OpportunityAnalyzer.evaluate_profitability o⟩)
    ∧ pyRound2 (weightedTotal
        ⟨OpportunityAnalyzer.evaluate_market_potential o,
         OpportunityAnalyzer.evaluate_feasibility o,
         OpportunityAnalyzer.evaluate_risks o,
         OpportunityAnalyzer.evaluate_profitability o⟩) ≤ 1 := by
  have hw := weightedTotal_bounds
    ⟨OpportunityAnalyzer.evaluate_market_potential o,
     OpportunityAnalyzer.evaluate_feasibility o,
     OpportunityAnalyzer.evaluate_risks o,
     OpportunityAnalyzer.evaluate_profitability o⟩
    (OA_mp_bounds o).1 (OA_mp_bounds o).2
    (OA_feas_bounds o).1 (OA_feas_bounds o).2 (OA_risk_bounds o).1 (OA_risk_bounds o).2
    (OA_profit_bounds o).1 (OA_profit_bounds o).2
  exact pyRound2_bounds _ hw.1 hw.2

lemma ME_overall_bounds (o : Opportunity) :
    0 ≤ pyRound2 (weightedTotal
        ⟨MoneyEvaluation.evaluate_market_potential o,
         MoneyEvaluation.evaluate_feasibility o,
         MoneyEvaluation.evaluate_risks o,
         MoneyEvaluation.evaluate_profitability o⟩)
    ∧ pyRound2 (weightedTotal
        ⟨MoneyEvaluation.evaluate_market_potential o,
         MoneyEvaluation.evaluate_feasibility o,
         MoneyEvaluation.evaluate_risks o,
         MoneyEvaluation.evaluate_profitability o⟩) ≤ 1 := by
  have hw := weightedTotal_bounds
    ⟨MoneyEvaluation.evaluate_market_potential o,
     MoneyEvaluation.evaluate_feasibility o,
     MoneyEvaluation.evaluate_risks o,
     MoneyEvaluation.evaluate_profitability o⟩
    (ME_mp_bounds o).1 (ME_mp_bounds o).2
    (ME_feas_bounds o).1 (ME_feas_bounds o).2 (ME_risk_bounds o).1 (ME_risk_bounds o).2
    (ME_profit_bounds o).1 (ME_profit_bounds o).2
  exact pyRound2_bounds _ hw.1 hw.2

end Aggregation

/-- An `Analyzed` value also produced by `analyze_opportunities [{}]` (all
optional fields absent): scores 0.7/0.6/0.8/0.5, overall 0.66. -/
def sampleAnalyzed : OpportunityAnalyzer.Analyzed :=
  { opp := {}, scores := ⟨0.7, 0.6, 0.8, 0.5⟩, overall_score := 0.66 }

/-- C2: the fixed criteria weights are 0.3/0.25/0.25/0.2 and sum to exactly 1;
for every score set the aggregate is the weighted sum `Σ score[c]*weight[c]`;
whenever the four scores lie in [0,1] the rounded aggregate lies in [0,1]; and
in both pipelines every produced `overall_score` is exactly the 2-decimal
rounding of the weighted sum of its score set (and lies in [0,1]). -/
theorem claim_C2_weights_and_aggregation :
    ((evaluation_criteria.map (fun e => e.2.1)).sum = 1
      ∧ criterionWeight "market_potential" = 0.3
      ∧ criterionWeight "feasibility" = 0.25
      ∧ criterionWeight "risk_level" = 0.25
      ∧ criterionWeight "profitability" = 0.2)
    ∧ (∀ s : Scores,
        weightedTotal s
          = s.market_potential * criterionWeight "market_potential"
            + s.feasibility * criterionWeight "feasibility"
            + s.risk_level * criterionWeight "risk_level"
            + s.profitability * criterionWeight "profitability")
    ∧ (∀ s : Scores,
        0 ≤ s.market_potential → s.market_potential ≤ 1 →
        0 ≤ s.feasibility → s.feasibility ≤ 1 →
        0 ≤ s.risk_level → s.risk_level ≤ 1 →
        0 ≤ s.profitability → s.profitability ≤ 1 →
        0 ≤ pyRound2 (weightedTotal s) ∧ pyRound2 (weightedTotal s) ≤ 1)
    ∧ (∀ l : List Opportunity, ∀ a ∈ OpportunityAnalyzer.analyze_opportunities l,
        a.overall_score = pyRound2 (weightedTotal a.scores)
          ∧ 0 ≤ a.overall_score ∧ a.overall_score ≤ 1)
    ∧ (∀ l : List Opportunity, ∀ e ∈ MoneyEvaluation.evaluate_opportunities l,
        e.overall_score = pyRound2 (weightedTotal e.scores)
          ∧ 0 ≤ e.overall_score ∧ e.overall_score ≤ 1) := by
  refine ⟨⟨by with_unfolding_all rfl, criterionWeight_mp, criterionWeight_feas,
      criterionWeight_risk, criterionWeight_profit⟩,
    weightedTotal_eq, ?_, ?_, ?_⟩
  · intro s h1 h2 h3 h4 h5 h6 h7 h8
    have hw := weightedTotal_bounds s h1 h2 h3 h4 h5 h6 h7 h8
    exact pyRound2_bounds _ hw.1 hw.2
  · intro l a ha
    obtain ⟨o, _, rfl⟩ := List.mem_map.mp ha
    exact ⟨rfl, OA_overall_bounds o⟩
  · intro l e he
    rw [MoneyEvaluation.evaluate_opportunities, mem_sortDesc] at he
    obtain ⟨o, _, rfl⟩ := List.mem_map.mp he
    exact ⟨rfl, ME_overall_bounds o⟩

/-- Witness for C2 at concrete inputs: the score set (1, 0.6, 0.8, 0.5) and a
concrete element of `analyze_opportunities [{}]`. -/
theorem claim_C2_weights_and_aggregation_witness :
    (0 ≤ pyRound2 (weightedTotal ⟨1, 0.6, 0.8, 0.5⟩)
      ∧ pyRound2 (weightedTotal ⟨1, 0.6, 0.8, 0.5⟩) ≤ 1)
    ∧ (sampleAnalyzed.overall_score = pyRound2 (weightedTotal sampleAnalyzed.scores)
      ∧ 0 ≤ sampleAnalyzed.overall_score ∧ sampleAnalyzed.overall_score ≤ 1) :=
  ⟨claim_C2_weights_and_aggregation.2.2.1 ⟨1, 0.6, 0.8, 0.5⟩ (by norm_num) (by norm_num)
      (by norm_num) (by norm_num) (by norm_num) (by norm_num) (by norm_num) (by norm_num),
   claim_C2_weights_and_aggregation.2.2.2.1 [{}] sampleAnalyzed (by with_unfolding_all decide)⟩

/-- C4: `_get_priority_level` maps a score to "High" iff it is at least 0.8,
to "Medium" iff it is in [0.6, 0.8), and to "Low" iff it is below 0.6; the
lower bounds 0.8 and 0.6 are inclusive, and 0.9 ↦ "High", 0.7 ↦ "Medium",
0.4 ↦ "Low". -/
theorem claim_C4_threshold_priority :
    (∀ s : ℚ,
      (MoneyEvaluation.get_priority_level s = "High" ↔ 0.8 ≤ s)
      ∧ (MoneyEvaluation.get_priority_level s = "Medium" ↔ 0.6 ≤ s ∧ s < 0.8)
      ∧ (MoneyEvaluation.get_priority_level s = "Low" ↔ s < 0.6))
    ∧ MoneyEvaluation.get_priority_level 0.8 = "High"
    ∧ MoneyEvaluation.get_priority_level 0.6 = "Medium"
    ∧ MoneyEvaluation.get_priority_level 0.9 = "High"
    ∧ MoneyEvaluation.get_priority_level 0.7 = "Medium"
    ∧ MoneyEvaluation.get_priority_level 0.4 = "Low" := by
  refine ⟨?_, by with_unfolding_all rfl, by with_unfolding_all rfl,
    by with_unfolding_all rfl, by with_unfolding_all rfl, by with_unfolding_all rfl⟩
  intro s
  unfold MoneyEvaluation.get_priority_level
  split_ifs with h1 h2
  · refine ⟨⟨fun _ => h1, fun _ => rfl⟩, ⟨fun h => absurd h (by decide), ?_⟩,
      ⟨fun h => absurd h (by decide), fun h => absurd h1 (not_le.mpr (by linarith))⟩⟩
    rintro ⟨-, hlt⟩
    exact absurd h1 (not_le.mpr hlt)
  · refine ⟨⟨fun h => absurd h (by decide), fun h => absurd h h1⟩,
      ⟨fun _ => ⟨h2, not_le.mp h1⟩, fun _ => rfl⟩,
      ⟨fun h => absurd h (by decide), fun h => absurd h2 (not_le.mpr h)⟩⟩
  · refine ⟨⟨fun h => absurd h (by decide), fun h => absurd h h1⟩,
      ⟨fun h => absurd h (by decide), ?_⟩, ⟨fun _ => not_le.mp h2, fun _ => rfl⟩⟩
    rintro ⟨hge, -⟩
    exact absurd hge h2

/-- C6: `execute` distinguishes missing input from empty input — with no
market-research record it returns a failed result carrying the no-data error
and writes nothing; with a present record whose opportunity list is empty it
returns a successful result whose opportunity list is empty (and stores it). -/
theorem claim_C6_missing_vs_empty_input :
    (∀ now : String,
      OpportunityAnalyzer.execute now none
        = ({ success := false, data := none,
             error := some "No market research data available" }, none))
    ∧ (∀ (now : String) (mr : OpportunityAnalyzer.MarketResearch),
        mr.opportunities = [] →
        OpportunityAnalyzer.execute now (some mr)
          = ({ success := true, data := some { timestamp := now, opportunities := [] },
               error := none }, some { timestamp := now, opportunities := [] })) := by
  constructor
  · intro now
    rfl
  · rintro now ⟨opps⟩ h
    subst h
    rfl

/-- Witness for C6 at a concrete empty market-research record. -/
theorem claim_C6_missing_vs_empty_input_witness :
    OpportunityAnalyzer.execute "t" (some ⟨[]⟩)
      = ({ success := true, data := some { timestamp := "t", opportunities := [] },
           error := none }, some { timestamp := "t", opportunities := [] }) :=
  claim_C6_missing_vs_empty_input.2 "t" ⟨[]⟩ rfl

/-- C7: after `_generate_action_plans`, a "High"-priority entry carries the
detailed plan, whose `milestones` are exactly "Market Validation"/"30 days"
and "MVP Planning"/"60 days" with their fixed success-criteria lists; a
"Medium"- or "Low"-priority entry carries the basic plan, which has no
`milestones` key; and the only opportunity-dependent field of either plan is
the skills list carried over from `requirements`. -/
theorem claim_C7_action_plan_shape :
    (∀ l : List OpportunityAnalyzer.Prioritized,
      ∀ x ∈ OpportunityAnalyzer.generate_action_plans l,
        (x.priority = "High" →
          x.action_plan = OpportunityAnalyzer.create_detailed_plan x.analyzed.opp
          ∧ x.action_plan.milestones = some
              [{ name := "Market Validation", timeline := "30 days",
                 success_criteria :=
                   ["Identified 10+ potential customers",
                    "Completed competitor analysis",
                    "Defined unique value proposition"] },
               { name := "MVP Planning", timeline := "60 days",
                 success_criteria :=
                   ["Detailed technical requirements",
                    "Resource plan",
                    "Initial cost estimates"] }]
          ∧ (x.action_plan.milestones.getD []).length = 2)
        ∧ (x.priority = "Medium" ∨ x.priority = "Low" →
          x.action_plan = OpportunityAnalyzer.create_basic_plan x.analyzed.opp
          ∧ x.action_plan.milestones = none))
    ∧ (∀ o o' : Opportunity,
        OpportunityAnalyzer.reqSkills o = OpportunityAnalyzer.reqSkills o' →
        OpportunityAnalyzer.create_detailed_plan o
          = OpportunityAnalyzer.create_detailed_plan o')
    ∧ (∀ o o' : Opportunity,
        OpportunityAnalyzer.create_basic_plan o
          = OpportunityAnalyzer.create_basic_plan o') := by
  refine ⟨?_, ?_, fun o o' => rfl⟩
  · intro l x hx
    obtain ⟨p, -, rfl⟩ := List.mem_map.mp hx
    constructor
    · intro hHigh
      have hp : p.priority = "High" := hHigh
      simp only [hp, if_pos]
      exact ⟨by simp [hp], rfl, rfl⟩
    · intro hML
      have hp : ¬ p.priority = "High" := by
        rcases hML with h | h
        · have h' : p.priority = "Medium" := h
          rw [h']; decide
        · have h' : p.priority = "Low" := h
          rw [h']; decide
      simp only [if_neg hp]
      exact ⟨by simp [if_neg hp], rfl⟩
  · intro o o' h
    simp [OpportunityAnalyzer.create_detailed_plan, h]

/-- Witness for C7: a concrete "Low"-priority entry gets the milestone-free
basic plan, and two opportunities with equal skills get equal detailed
plans. -/
theorem claim_C7_action_plan_shape_witness :
    ((⟨sampleAnalyzed, "Low", OpportunityAnalyzer.create_basic_plan sampleAnalyzed.opp⟩ :
        OpportunityAnalyzer.Planned).action_plan
        = OpportunityAnalyzer.create_basic_plan sampleAnalyzed.opp
      ∧ (⟨sampleAnalyzed, "Low", OpportunityAnalyzer.create_basic_plan sampleAnalyzed.opp⟩ :
        OpportunityAnalyzer.Planned).action_plan.milestones = none)
    ∧ OpportunityAnalyzer.create_detailed_plan {}
        = OpportunityAnalyzer.create_detailed_plan { title := some "w" } :=
  ⟨(claim_C7_action_plan_shape.1 [⟨sampleAnalyzed, "Low"⟩]
      ⟨sampleAnalyzed, "Low", OpportunityAnalyzer.create_basic_plan sampleAnalyzed.opp⟩
      (by with_unfolding_all decide)).2 (Or.inr rfl),
   claim_C7_action_plan_shape.2.1 {} { title := some "w" } rfl⟩

section PrioritizeLemmas

lemma prioritize_map_analyzed (l : List OpportunityAnalyzer.Analyzed) :
    (OpportunityAnalyzer.prioritize_opportunities l).map (fun x => x.analyzed)
      = sortDesc (fun a => a.overall_score) l := by
  unfold OpportunityAnalyzer.prioritize_opportunities
  rw [List.map_map]
  exact List.enum_map_snd _

lemma prioritize_map_priority (l : List OpportunityAnalyzer.Analyzed) :
    (OpportunityAnalyzer.prioritize_opportunities l).map (fun x => x.priority)
      = (List.range l.length).map (fun i : ℕ =>
          if (i : ℚ) < (l.length : ℚ) * 0.2 then "High"
          else if (i : ℚ) < (l.length : ℚ) * 0.5 then "Medium"
          else "Low") := by
  unfold OpportunityAnalyzer.prioritize_opportunities
  rw [List.map_map]
  have h1 : ((fun x : OpportunityAnalyzer.Prioritized => x.priority) ∘
      (fun p : ℕ × OpportunityAnalyzer.Analyzed =>
        ({ analyzed := p.2,
           priority :=
             if (p.1 : ℚ) < ((sortDesc (fun a => a.overall_score) l).length : ℚ) * 0.2 then "High"
             else if (p.1 : ℚ) < ((sortDesc (fun a => a.overall_score) l).length : ℚ) * 0.5 then "Medium"
             else "Low" } : OpportunityAnalyzer.Prioritized)))
      = (fun i : ℕ =>
          if (i : ℚ) < (l.length : ℚ) * 0.2 then "High"
          else if (i : ℚ) < (l.length : ℚ) * 0.5 then "Medium"
          else "Low") ∘ Prod.fst := by
    funext p
    simp [length_sortDesc]
  rw [h1, ← List.map_map, List.enum_map_fst, length_sortDesc]

end PrioritizeLemmas

section RangeReplicate

variable {β : Type}

lemma range'_map_const (b : β) (f : ℕ → β) :
    ∀ m s : ℕ, (∀ i, s ≤ i → i < s + m → f i = b) →
      (List.range' s m).map f = List.replicate m b := by
  intro m
  induction m with
  | zero => intro s _; rfl
  | succ n ih =>
    intro s h
    show (s :: List.range' (s + 1) n).map f = List.replicate (n + 1) b
    rw [List.map_cons, List.replicate_succ, h s le_rfl (by omega),
      ih (s + 1) (fun i h1 h2 => h i (by omega) (by omega))]

lemma range_split (k1 k2 n : ℕ) (h1 : k1 ≤ k2) (h2 : k2 ≤ n) :
    List.range n = (List.range' 0 k1 ++ List.range' k1 (k2 - k1)) ++ List.range' k2 (n - k2) := by
  have hk2 : k2 - k1 + k1 = k2 := by omega
  have hn : n - k2 + k2 = n := by omega
  have a1 := List.range'_append 0 k1 (k2 - k1) 1
  have a2 := List.range'_append 0 k2 (n - k2) 1
  simp only [one_mul, zero_add, hk2, hn] at a1 a2
  rw [List.range_eq_range', ← a2, ← a1]

lemma threshold_map (n k1 k2 : ℕ) (h1 : k1 ≤ k2) (h2 : k2 ≤ n) (f : ℕ → β) (a b c : β)
    (hf : ∀ i, f i = if i < k1 then a else if i < k2 then b else c) :
    (List.range n).map f
      = List.replicate k1 a ++ List.replicate (k2 - k1) b ++ List.replicate (n - k2) c := by
  rw [range_split k1 k2 n h1 h2, List.map_append, List.map_append,
    range'_map_const a f k1 0 (fun i hi1 hi2 => by rw [hf]; rw [if_pos (by omega)]),
    range'_map_const b f (k2 - k1) k1 (fun i hi1 hi2 => by
      rw [hf, if_neg (by omega), if_pos (by omega)]),
    range'_map_const c f (n - k2) k2 (fun i hi1 hi2 => by
      rw [hf, if_neg (by omega), if_neg (by omega)])]

end RangeReplicate

/-- A labelled `Analyzed` record with the given overall score (scores
irrelevant to sorting/tiering). -/
def mkA (t : String) (q : ℚ) : OpportunityAnalyzer.Analyzed :=
  { opp := { title := some t }, scores := ⟨q, q, q, q⟩, overall_score := q }

/-- C5: both prioritizers sort their evaluations descending by
`overall_score`, and the sort is stable — filtering the output to any fixed
score yields exactly the input's elements of that score in input order; in
particular for input scores [0.9, 0.5, 0.9, 0.3] the two 0.9 items keep
their input order. -/
theorem claim_C5_stable_descending_sort :
    (∀ l : List OpportunityAnalyzer.Analyzed,
      ((OpportunityAnalyzer.prioritize_opportunities l).map (fun x => x.analyzed)).Pairwise
        (fun a b => b.overall_score ≤ a.overall_score))
    ∧ (∀ (l : List OpportunityAnalyzer.Analyzed) (q : ℚ),
        ((OpportunityAnalyzer.prioritize_opportunities l).map (fun x => x.analyzed)).filter
            (fun a => a.overall_score == q)
          = l.filter (fun a => a.overall_score == q))
    ∧ (∀ l : List Opportunity,
        (MoneyEvaluation.evaluate_opportunities l).Pairwise
          (fun a b => b.overall_score ≤ a.overall_score))
    ∧ (∀ (l : List Opportunity) (q : ℚ),
        (MoneyEvaluation.evaluate_opportunities l).filter (fun e => e.overall_score == q)
          = (l.map MoneyEvaluation.evaluateOne).filter (fun e => e.overall_score == q))
    ∧ (OpportunityAnalyzer.prioritize_opportunities
          [mkA "A" 0.9, mkA "B" 0.5, mkA "C" 0.9, mkA "D" 0.3]).map
        (fun x => x.analyzed.opp.title)
        = [some "A", some "C", some "B", some "D"] := by
  refine ⟨?_, ?_, ?_, ?_, by with_unfolding_all rfl⟩
  · intro l
    rw [prioritize_map_analyzed]
    exact pairwise_sortDesc _ l
  · intro l q
    rw [prioritize_map_analyzed]
    exact filter_sortDesc _ q l
  · intro l
    exact pairwise_sortDesc _ _
  · intro l q
    exact filter_sortDesc _ q _

/-- C3 (amended): the rank-based prioritizer uses the strict comparison
`idx < len * fraction`, so after the descending sort exactly
`⌈n * 0.2⌉` items are High, the next `⌈n * 0.5⌉ - ⌈n * 0.2⌉` are Medium and
the remaining `n - ⌈n * 0.5⌉` are Low (ceiling, not integer truncation); on a
10-item list this is exactly 2 High, 3 Medium, 5 Low. -/
theorem claim_C3_rank_tiers_amended :
    (∀ l : List OpportunityAnalyzer.Analyzed,
      (OpportunityAnalyzer.prioritize_opportunities l).map (fun x => x.priority)
        = List.replicate ⌈(l.length : ℚ) * 0.2⌉₊ "High"
          ++ List.replicate (⌈(l.length : ℚ) * 0.5⌉₊ - ⌈(l.length : ℚ) * 0.2⌉₊) "Medium"
          ++ List.replicate (l.length - ⌈(l.length : ℚ) * 0.5⌉₊) "Low")
    ∧ (∀ l : List OpportunityAnalyzer.Analyzed, l.length = 10 →
        (OpportunityAnalyzer.prioritize_opportunities l).map (fun x => x.priority)
          = List.replicate 2 "High" ++ List.replicate 3 "Medium" ++ List.replicate 5 "Low") := by
  have main : ∀ l : List OpportunityAnalyzer.Analyzed,
      (OpportunityAnalyzer.prioritize_opportunities l).map (fun x => x.priority)
        = List.replicate ⌈(l.length : ℚ) * 0.2⌉₊ "High"
          ++ List.replicate (⌈(l.length : ℚ) * 0.5⌉₊ - ⌈(l.length : ℚ) * 0.2⌉₊) "Medium"
          ++ List.replicate (l.length - ⌈(l.length : ℚ) * 0.5⌉₊) "Low" := by
    intro l
    rw [prioritize_map_priority]
    apply threshold_map
    · apply Nat.ceil_le_ceil
      have h : (0:ℚ) ≤ (l.length : ℚ) := by positivity
      nlinarith
    · rw [Nat.ceil_le]
      have h : (0:ℚ) ≤ (l.length : ℚ) := by positivity
      nlinarith
    · intro i
      exact if_congr Nat.lt_ceil.symm rfl (if_congr Nat.lt_ceil.symm rfl rfl)
  refine ⟨main, ?_⟩
  intro l hl
  rw [main l, hl]
  norm_num

/-- C3 is false as stated: on a 1-element list the code assigns "High" to the
single item (index 0 satisfies `0 < 1 * 0.2`), while integer truncation gives
`⌊1 * 0.2⌋ = 0` High items. -/
theorem claim_C3_rank_tiers_counterexample :
    (OpportunityAnalyzer.prioritize_opportunities [mkA "only" 0.3]).map (fun x => x.priority)
        = ["High"]
    ∧ ⌊(1 : ℚ) * 0.2⌋₊ = 0 := by
  constructor
  · with_unfolding_all rfl
  · norm_num

/-- C10: on every non-empty input the rank-based prioritizer gives the first
(highest-scoring) element priority "High" and every element one of the three
priorities; a single-element batch is always "High" and receives the detailed
action plan regardless of its score. -/
theorem claim_C10_singleton_always_high :
    (∀ l : List OpportunityAnalyzer.Analyzed, l ≠ [] →
      ((OpportunityAnalyzer.prioritize_opportunities l).map (fun x => x.priority)).head?
        = some "High"
      ∧ ∀ x ∈ OpportunityAnalyzer.prioritize_opportunities l,
          x.priority = "High" ∨ x.priority = "Medium" ∨ x.priority = "Low")
    ∧ (∀ a : OpportunityAnalyzer.Analyzed,
        OpportunityAnalyzer.generate_action_plans
            (OpportunityAnalyzer.prioritize_opportunities [a])
          = [⟨a, "High", OpportunityAnalyzer.create_detailed_plan a.opp⟩]) := by
  constructor
  · intro l hl
    constructor
    · rw [prioritize_map_priority]
      have hn : 0 < l.length := List.length_pos.mpr hl
      obtain ⟨m, hm⟩ : ∃ m, l.length = m + 1 := ⟨l.length - 1, by omega⟩
      rw [hm, List.range_succ_eq_map]
      simp only [List.map_cons, List.head?_cons]
      rw [if_pos]
      push_cast
      positivity
    · intro x hx
      unfold OpportunityAnalyzer.prioritize_opportunities at hx
      obtain ⟨p, -, rfl⟩ := List.mem_map.mp hx
      by_cases h1 : (p.1 : ℚ) < ((sortDesc (fun a => a.overall_score) l).length : ℚ) * 0.2
      · left; simp [h1]
      · by_cases h2 : (p.1 : ℚ) < ((sortDesc (fun a => a.overall_score) l).length : ℚ) * 0.5
        · right; left; simp [h1, h2]
        · right; right; simp [h1, h2]
  · intro a
    with_unfolding_all rfl

/-- Witness for C10 at a concrete one-element list with a low score. -/
theorem claim_C10_singleton_always_high_witness :
    ((OpportunityAnalyzer.prioritize_opportunities [mkA "w" 0.1]).map
        (fun x => x.priority)).head? = some "High" :=
  (claim_C10_singleton_always_high.1 [mkA "w" 0.1] (by simp)).1

/-- The end-to-end scenario input: one opportunity with sector "technology",
insight "growing market with high demand", market_size "$5 trillion",
growth_rate "25%". -/
def scenarioOpp : Opportunity :=
  { sector := some "technology",
    insight := some "growing market with high demand",
    market_size := some "$5 trillion",
    growth_rate := some "25%" }

/-- C8 is false as stated: on the scenario input the threshold policy yields
priority "Medium", not "High" — both for the analyzer-scored weighted sum
(0.75) and within the money-evaluation pipeline itself (total 0.615); and the
money-evaluation scorer's market_potential is 0.8, below 0.9. -/
theorem claim_C8_scenario_counterexample :
    MoneyEvaluation.get_priority_level (weightedTotal
      ⟨OpportunityAnalyzer.evaluate_market_potential scenarioOpp,
       OpportunityAnalyzer.evaluate_feasibility scenarioOpp,
       OpportunityAnalyzer.evaluate_risks scenarioOpp,
       OpportunityAnalyzer.evaluate_profitability scenarioOpp⟩) = "Medium"
    ∧ (MoneyEvaluation.evaluateOne scenarioOpp).priority = "Medium"
    ∧ ¬ MoneyEvaluation.get_priority_level (weightedTotal
      ⟨OpportunityAnalyzer.evaluate_market_potential scenarioOpp,
       OpportunityAnalyzer.evaluate_feasibility scenarioOpp,
       OpportunityAnalyzer.evaluate_risks scenarioOpp,
       OpportunityAnalyzer.evaluate_profitability scenarioOpp⟩) = "High"
    ∧ ¬ (MoneyEvaluation.evaluateOne scenarioOpp).priority = "High"
    ∧ ¬ (0.9 : ℚ) ≤ MoneyEvaluation.evaluate_market_potential scenarioOpp :=
  ⟨by with_unfolding_all rfl, by with_unfolding_all rfl,
   by with_unfolding_all decide, by with_unfolding_all decide,
   by with_unfolding_all decide⟩

/-- C8 (amended): on the scenario input the analyzer scorer's
market_potential is at least 0.9 while the money-evaluation scorer's is
below 0.9; and the threshold policy applied to the weighted sum of either
implementation's scores yields priority "Medium", not "High". (Only
float-robust facts are asserted: the exact-rational totals 0.75 and 0.615
sit well inside the [0.6, 0.8) "Medium" band, so CPython's float values,
within an ulp of them, tier identically; the stored money-evaluation
`overall_score` itself is midpoint-sensitive — CPython floats give
`round(0.6149999999999999, 2) = 0.61` — and is therefore not pinned
here.) -/
theorem claim_C8_scenario_amended :
    (0.9 : ℚ) ≤ OpportunityAnalyzer.evaluate_market_potential scenarioOpp
    ∧ MoneyEvaluation.evaluate_market_potential scenarioOpp < 0.9
    ∧ MoneyEvaluation.get_priority_level (weightedTotal
        ⟨OpportunityAnalyzer.evaluate_market_potential scenarioOpp,
         OpportunityAnalyzer.evaluate_feasibility scenarioOpp,
         OpportunityAnalyzer.evaluate_risks scenarioOpp,
         OpportunityAnalyzer.evaluate_profitability scenarioOpp⟩) = "Medium"
    ∧ (MoneyEvaluation.evaluateOne scenarioOpp).priority = "Medium"
    ∧ (MoneyEvaluation.evaluateOne scenarioOpp).priority ≠ "High" :=
  ⟨by with_unfolding_all decide, by with_unfolding_all decide,
   by with_unfolding_all rfl, by with_unfolding_all rfl,
   by with_unfolding_all decide⟩

/-- Python `calendar`-style leap-year test used by `datetime`. -/
def isLeap (y : ℕ) : Bool := y % 4 = 0 ∧ (y % 100 ≠ 0 ∨ y % 400 = 0)

/-- Days in a month of the proleptic Gregorian calendar. -/
def daysInMonth (y m : ℕ) : ℕ :=
  if m = 2 then (if isLeap y then 29 else 28)
  else if m = 4 ∨ m = 6 ∨ m = 9 ∨ m = 11 then 30
  else 31

/-- A naive `datetime.datetime` value. -/
structure PyDateTime where
  year : ℕ
  month : ℕ
  day : ℕ
  hour : ℕ
  minute : ℕ
  second : ℕ
  microsecond : ℕ
deriving DecidableEq

/-- The field ranges `datetime.datetime` enforces (MINYEAR = 1,
MAXYEAR = 9999). -/
def ValidDT (d : PyDateTime) : Prop :=
  1 ≤ d.year ∧ d.year ≤ 9999 ∧ 1 ≤ d.month ∧ d.month ≤ 12
    ∧ 1 ≤ d.day ∧ d.day ≤ daysInMonth d.year d.month
    ∧ d.hour < 24 ∧ d.minute < 60 ∧ d.second < 60 ∧ d.microsecond < 1000000

instance (d : PyDateTime) : Decidable (ValidDT d) := by
  unfold ValidDT; infer_instance

/-- The decimal digit character for `n % 10`. -/
def digitChar (n : ℕ) : Char :=
  match n % 10 with
  | 0 => '0' | 1 => '1' | 2 => '2' | 3 => '3' | 4 => '4'
  | 5 => '5' | 6 => '6' | 7 => '7' | 8 => '8' | _ => '9'

/-- Two-digit zero-padded decimal rendering (for values below 100). -/
def pad2 (n : ℕ) : List Char := [digitChar (n / 10), digitChar n]

/-- Four-digit zero-padded decimal rendering (for values below 10000). -/
def pad4 (n : ℕ) : List Char :=
  [digitChar (n / 1000), digitChar (n / 100), digitChar (n / 10), digitChar n]

/-- Six-digit zero-padded decimal rendering (for values below 1000000). -/
def pad6 (n : ℕ) : List Char :=
  [digitChar (n / 100000), digitChar (n / 10000), digitChar (n / 1000),
   digitChar (n / 100), digitChar (n / 10), digitChar n]

/-- `datetime.isoformat()` for a naive datetime:
"YYYY-MM-DDTHH:MM:SS" with ".ffffff" appended iff `microsecond ≠ 0`. -/
def isoformat (d : PyDateTime) : String :=
  String.mk (pad4 d.year ++ '-' :: pad2 d.month ++ '-' :: pad2 d.day
    ++ 'T' :: pad2 d.hour ++ ':' :: pad2 d.minute ++ ':' :: pad2 d.second
    ++ (if d.microsecond = 0 then [] else '.' :: pad6 d.microsecond))

/-- Numeric value of a digit character. -/
def d2n (c : Char) : ℕ := c.toNat - 48

/-- Parse two digit characters as a two-digit number. -/
def parse2 (a b : Char) : Option ℕ :=
  if a.isDigit && b.isDigit then some (10 * d2n a + d2n b) else none

/-- Parse four digit characters as a four-digit number. -/
def parse4 (a b c e : Char) : Option ℕ :=
  if a.isDigit && b.isDigit && c.isDigit && e.isDigit then
    some (1000 * d2n a + 100 * d2n b + 10 * d2n c + d2n e)
  else none

/-- Parse six digit characters as a six-digit number. -/
def parse6 (a b c e f g : Char) : Option ℕ :=
  if a.isDigit && b.isDigit && c.isDigit && e.isDigit && f.isDigit && g.isDigit then
    some (100000 * d2n a + 10000 * d2n b + 1000 * d2n c + 100 * d2n e + 10 * d2n f + d2n g)
  else none

/-- Range-check the parsed fields as the `datetime` constructor does. -/
def mkValidDT (y mo dy h mi se us : ℕ) : Option PyDateTime :=
  if ValidDT ⟨y, mo, dy, h, mi, se, us⟩ then some ⟨y, mo, dy, h, mi, se, us⟩ else none

/-- `datetime.fromisoformat` restricted to the naive
"YYYY-MM-DD[T ]HH:MM:SS[.ffffff]" layouts that `isoformat` emits; any other
shape or out-of-range field yields `none` (the `ValueError` branch). -/
def fromisoformat (s : String) : Option PyDateTime :=
  match s.data with
  | y1 :: y2 :: y3 :: y4 :: c1 :: mo1 :: mo2 :: c2 :: d1 :: d2 :: c3 :: h1 :: h2 :: c4 ::
      mi1 :: mi2 :: c5 :: s1 :: s2 :: rest =>
    if c1 = '-' ∧ c2 = '-' ∧ (c3 = 'T' ∨ c3 = ' ') ∧ c4 = ':' ∧ c5 = ':' then
      match parse4 y1 y2 y3 y4, parse2 mo1 mo2, parse2 d1 d2,
          parse2 h1 h2, parse2 mi1 mi2, parse2 s1 s2 with
      | some y, some mo, some dy, some h, some mi, some se =>
        match rest with
        | [] => mkValidDT y mo dy h mi se 0
        | '.' :: u1 :: u2 :: u3 :: u4 :: u5 :: u6 :: [] =>
          match parse6 u1 u2 u3 u4 u5 u6 with
          | some us => mkValidDT y mo dy h mi se us
          | none => none
        | _ => none
      | _, _, _, _, _, _ => none
    else none
  | _ => none

/-- `date.toordinal()`: days before year `y` plus days before month `m` plus
day of month, with 0001-01-01 as day 1. -/
def daysBeforeYear (y : ℕ) : ℕ :=
  365 * (y - 1) + (y - 1) / 4 - (y - 1) / 100 + (y - 1) / 400

/-- Days in year `y` strictly before month `m`. -/
def daysBeforeMonth (y m : ℕ) : ℕ :=
  ((List.range' 1 (m - 1)).map (daysInMonth y)).sum

/-- `date.toordinal()` for the date part of a datetime. -/
def toordinal (d : PyDateTime) : ℕ :=
  daysBeforeYear d.year + daysBeforeMonth d.year d.month + d.day

/-- The datetime as exact seconds since the epoch of the ordinal scale:
`(a - b).total_seconds() = totalSecondsQ a - totalSecondsQ b`. -/
def totalSecondsQ (d : PyDateTime) : ℚ :=
  (toordinal d : ℚ) * 86400 + d.hour * 3600 + d.minute * 60 + d.second
    + (d.microsecond : ℚ) / 1000000

/-- `_is_data_fresh` of `MoneyEvaluationActivity`: false on a falsy (empty)
timestamp, false when `fromisoformat` raises `ValueError`, else compares the
age in seconds (now minus data time) against `max_age_hours * 3600`. -/
def is_data_fresh (now : PyDateTime) (timestamp : String) (max_age_hours : ℕ) : Bool :=
  if timestamp = "" then false
  else
    match fromisoformat timestamp with
    | some data_time =>
      decide (totalSecondsQ now - totalSecondsQ data_time < (max_age_hours : ℚ) * 3600)
    | none => false

section RoundTrip

lemma d2n_digitChar (n : ℕ) : d2n (digitChar n) = n % 10 := by
  unfold digitChar
  have h : n % 10 < 10 := Nat.mod_lt _ (by norm_num)
  set m := n % 10 with hm
  interval_cases m <;> rfl

lemma isDigit_digitChar (n : ℕ) : (digitChar n).isDigit = true := by
  unfold digitChar
  have h : n % 10 < 10 := Nat.mod_lt _ (by norm_num)
  set m := n % 10 with hm
  interval_cases m <;> rfl

lemma parse2_pad2 (n : ℕ) (h : n < 100) :
    parse2 (digitChar (n / 10)) (digitChar n) = some n := by
  unfold parse2
  simp only [isDigit_digitChar, Bool.and_self, if_true, d2n_digitChar, Option.some.injEq]
  omega

lemma parse4_pad4 (n : ℕ) (h : n < 10000) :
    parse4 (digitChar (n / 1000)) (digitChar (n / 100)) (digitChar (n / 10)) (digitChar n)
      = some n := by
  unfold parse4
  simp only [isDigit_digitChar, Bool.and_self, if_true, d2n_digitChar, Option.some.injEq]
  omega

lemma parse6_pad6 (n : ℕ) (h : n < 1000000) :
    parse6 (digitChar (n / 100000)) (digitChar (n / 10000)) (digitChar (n / 1000))
        (digitChar (n / 100)) (digitChar (n / 10)) (digitChar n)
      = some n := by
  unfold parse6
  simp only [isDigit_digitChar, Bool.and_self, if_true, d2n_digitChar, Option.some.injEq]
  omega

lemma daysInMonth_le_31 (y m : ℕ) : daysInMonth y m ≤ 31 := by
  unfold daysInMonth
  split_ifs <;> omega

lemma fromisoformat_isoformat (d : PyDateTime) (h : ValidDT d) :
    fromisoformat (isoformat d) = some d := by
  obtain ⟨y, mo, dy, hh, mi, se, us⟩ := d
  unfold ValidDT at h
  dsimp only at h
  obtain ⟨h1, h2, h3, h4, h5, h6, h7, h8, h9, h10⟩ := h
  have hdy : dy < 100 := by
    have := daysInMonth_le_31 y mo
    omega
  by_cases hus : us = 0
  · subst hus
    unfold isoformat fromisoformat
    dsimp only
    rw [if_pos rfl]
    simp only [pad4, pad2, List.cons_append, List.nil_append, List.append_nil]
    rw [if_pos (by simp)]
    rw [parse4_pad4 y (by omega), parse2_pad2 mo (by omega), parse2_pad2 dy hdy,
      parse2_pad2 hh (by omega), parse2_pad2 mi (by omega), parse2_pad2 se (by omega)]
    dsimp only
    unfold mkValidDT
    rw [if_pos]
    exact ⟨h1, h2, h3, h4, h5, h6, h7, h8, h9, by norm_num⟩
  · unfold isoformat fromisoformat
    dsimp only
    rw [if_neg hus]
    simp only [pad4, pad2, pad6, List.cons_append, List.nil_append, List.append_nil]
    rw [if_pos (by simp)]
    rw [parse4_pad4 y (by omega), parse2_pad2 mo (by omega), parse2_pad2 dy hdy,
      parse2_pad2 hh (by omega), parse2_pad2 mi (by omega), parse2_pad2 se (by omega)]
    dsimp only
    rw [parse6_pad6 us (by omega)]
    dsimp only
    unfold mkValidDT
    rw [if_pos]
    exact ⟨h1, h2, h3, h4, h5, h6, h7, h8, h9, h10⟩

end RoundTrip

/-- C9: the pipeline stamps each analysis result with `now` in isoformat;
every isoformat-produced timestamp parses back with `fromisoformat` (so
`_is_data_fresh` never takes its `ValueError` branch on such input) and the
freshness check returns true exactly when the age in seconds is below
`max_age_hours * 3600`. -/
theorem claim_C9_timestamp_roundtrip :
    ∀ (d now : PyDateTime) (max_age_hours : ℕ), ValidDT d →
      fromisoformat (isoformat d) = some d
      ∧ isoformat d ≠ ""
      ∧ is_data_fresh now (isoformat d) max_age_hours
          = decide (totalSecondsQ now - totalSecondsQ d < (max_age_hours : ℚ) * 3600)
      ∧ ∀ (mr : OpportunityAnalyzer.MarketResearch) (r : OpportunityAnalyzer.AnalysisResult),
          (OpportunityAnalyzer.execute (isoformat d) (some mr)).2 = some r →
          fromisoformat r.timestamp = some d := by
  intro d now mah h
  have hrt := fromisoformat_isoformat d h
  have hne : isoformat d ≠ "" := by
    obtain ⟨y, mo, dy, hh, mi, se, us⟩ := d
    unfold isoformat
    intro heq
    have h2 := congrArg String.data heq
    simp [pad4] at h2
  refine ⟨hrt, hne, ?_, ?_⟩
  · unfold is_data_fresh
    rw [if_neg hne, hrt]
  · intro mr r hr
    unfold OpportunityAnalyzer.execute at hr
    dsimp only at hr
    have h2 := Option.some.inj hr
    subst h2
    exact hrt

/-- Witness for C9 at a concrete leap-day timestamp with microseconds. -/
theorem claim_C9_timestamp_roundtrip_witness :
    fromisoformat (isoformat ⟨2024, 2, 29, 23, 59, 59, 123456⟩)
        = some ⟨2024, 2, 29, 23, 59, 59, 123456⟩
      ∧ isoformat ⟨2024, 2, 29, 23, 59, 59, 123456⟩ ≠ ""
      ∧ is_data_fresh ⟨2024, 3, 1, 0, 0, 0, 0⟩
            (isoformat ⟨2024, 2, 29, 23, 59, 59, 123456⟩) 24
          = decide (totalSecondsQ ⟨2024, 3, 1, 0, 0, 0, 0⟩
              - totalSecondsQ ⟨2024, 2, 29, 23, 59, 59, 123456⟩ < (24 : ℚ) * 3600) :=
  let h := claim_C9_timestamp_roundtrip ⟨2024, 2, 29, 23, 59, 59, 123456⟩
    ⟨2024, 3, 1, 0, 0, 0, 0⟩ 24 (by decide)
  ⟨h.1, h.2.1, h.2.2.1⟩
